import Mathlib

/-! Shallow embedding of the secret-santa match-generation and sealing subsystem
(`server/routes/match.js`, `server/utils/crypto.js`, the matching utility, and the
`users`/`events`/`matches` tables of `server/db/init.js`), together with theorems
checking the specification's testable properties against the embedded code. -/

namespace SecretSanta

/-- Swap of the entries at positions `i` and `j` of a list, as performed by the
destructuring assignment `[arr[i], arr[j]] = [arr[j], arr[i]]` inside the
Fisher-Yates loop; an out-of-range position leaves the list unchanged (the loop
never produces one). -/
def listSwap {α : Type _} (l : List α) (i j : Nat) : List α :=
  match l[i]?, l[j]? with
  | some a, some b => (l.set i b).set j a
  | _, _ => l

/-- Loop of `shuffle(array)` (match.js lines 12-19, duplicated in the matching
utility): the index `i` counts down from `arr.length - 1` to `1`, and the random
draw `Math.floor(Math.random() * (i + 1))`, a uniform value in `[0, i]`, is
modelled as `f i % (i + 1)` for an arbitrary entropy function `f`. -/
def shuffleAux {α : Type _} (f : Nat → Nat) : Nat → List α → List α
  | 0, l => l
  | i+1, l => shuffleAux f i (listSwap l (i+1) (f (i+1) % (i+2)))

/-- `shuffle(array)`: copies the array (`[...array]`) and runs the Fisher-Yates
loop on the copy, returning it. -/
def shuffle {α : Type _} (f : Nat → Nat) (l : List α) : List α :=
  shuffleAux f (l.length - 1) l

theorem headSwap_perm {α : Type _} (x b : α) :
    ∀ (xs : List α) (j : Nat), xs[j]? = some b → (b :: xs.set j x).Perm (x :: xs)
  | [], j, h => by simp at h
  | y :: t, 0, h => by
    simp only [List.getElem?_cons_zero, Option.some.injEq] at h
    subst h
    exact List.Perm.swap x y t
  | y :: t, j+1, h => by
    have ih := headSwap_perm x b t j (by simpa using h)
    have h1 : (b :: y :: t.set j x).Perm (y :: b :: t.set j x) := List.Perm.swap y b _
    have h2 : (y :: b :: t.set j x).Perm (y :: x :: t) := ih.cons y
    have h3 : (y :: x :: t).Perm (x :: y :: t) := List.Perm.swap x y t
    simpa using h1.trans (h2.trans h3)

theorem set_set_swap_perm {α : Type _} :
    ∀ (l : List α) (i j : Nat) (a b : α), l[i]? = some a → l[j]? = some b →
      ((l.set i b).set j a).Perm l
  | [], _, _, _, _, h1, _ => by simp at h1
  | x :: xs, 0, 0, a, b, h1, h2 => by
    simp only [List.getElem?_cons_zero, Option.some.injEq] at h1 h2
    subst h1; subst h2
    simp
  | x :: xs, 0, j+1, a, b, h1, h2 => by
    simp only [List.getElem?_cons_zero, Option.some.injEq] at h1
    subst h1
    simpa using headSwap_perm x b xs j (by simpa using h2)
  | x :: xs, i+1, 0, a, b, h1, h2 => by
    simp only [List.getElem?_cons_zero, Option.some.injEq] at h2
    subst h2
    simpa using headSwap_perm x a xs i (by simpa using h1)
  | x :: xs, i+1, j+1, a, b, h1, h2 => by
    simpa using (set_set_swap_perm xs i j a b (by simpa using h1) (by simpa using h2)).cons x

theorem listSwap_perm {α : Type _} (l : List α) (i j : Nat) : (listSwap l i j).Perm l := by
  unfold listSwap
  split
  · next a b h1 h2 => exact set_set_swap_perm l i j a b h1 h2
  · exact List.Perm.refl l

theorem shuffleAux_perm {α : Type _} (f : Nat → Nat) :
    ∀ (n : Nat) (l : List α), (shuffleAux f n l).Perm l
  | 0, l => List.Perm.refl l
  | n+1, l => (shuffleAux_perm f n _).trans (listSwap_perm l (n+1) (f (n+1) % (n+2)))

theorem shuffle_perm {α : Type _} (f : Nat → Nat) (l : List α) : (shuffle f l).Perm l :=
  shuffleAux_perm f (l.length - 1) l

/-- Validity check `users.every((user, index) => user.id !== recipients[index].id)`
used by the rejection loop; `idOf` abstracts the `.id` projection so the check is
shared by the two copies of the loop in the source. -/
def noSelfMatch {α : Type _} (idOf : α → Nat) (users recipients : List α) : Bool :=
  (users.zip recipients).all fun p => idOf p.1 != idOf p.2

/-- Rejection loop `while (!isValid && attempts < maxAttempts)` shared verbatim by
`generateRandomDerangement` (match.js lines 37-44) and `generateMatches` (matching
utility): attempt `k` reshuffles with entropy `g k`; the fuel counts the remaining
attempts out of `maxAttempts = 100`. -/
def derangeAttempts {α : Type _} (idOf : α → Nat) (g : Nat → Nat → Nat) (users : List α) :
    Nat → Nat → Option (List α)
  | 0, _ => none
  | fuel+1, k =>
    if noSelfMatch idOf users (shuffle (g k) users) then some (shuffle (g k) users)
    else derangeAttempts idOf g users fuel (k+1)

/-- Row of the `users` table (db/init.js), restricted to the columns the match
subsystem reads; `password_hash` follows the symbolic bcrypt model defined below. -/
structure User where
  id : Nat
  event_id : Nat
  email : String
  name : String
  password_hash : String
  is_registered : Bool
deriving DecidableEq

/-- `generateRandomDerangement(users)` (match.js lines 26-51): fewer than two
participants is an error; otherwise shuffle until no position maps to itself, with
at most 100 attempts. -/
def generateRandomDerangement (g : Nat → Nat → Nat) (users : List User) :
    Except String (List User) :=
  if users.length < 2 then .error "Need at least 2 participants"
  else
    match derangeAttempts User.id g users 100 0 with
    | some recipients => .ok recipients
    | none => .error "Could not generate valid matches after 100 attempts"

theorem derangeAttempts_eq_some {α : Type _} (idOf : α → Nat) (g : Nat → Nat → Nat)
    (users : List α) :
    ∀ (fuel k : Nat) (r : List α), derangeAttempts idOf g users fuel k = some r →
      r.Perm users ∧ noSelfMatch idOf users r = true
  | 0, _, _, h => by simp [derangeAttempts] at h
  | fuel+1, k, r, h => by
    rw [derangeAttempts] at h
    split at h
    · next hv =>
      cases h
      exact ⟨shuffle_perm (g k) users, hv⟩
    · exact derangeAttempts_eq_some idOf g users fuel (k+1) r h

theorem noSelfMatch_ne {α : Type _} (idOf : α → Nat) :
    ∀ (us rs : List α), noSelfMatch idOf us rs = true →
      ∀ (i : Nat) (u v : α), us[i]? = some u → rs[i]? = some v → idOf u ≠ idOf v
  | [], _, _, _, _, _, hu, _ => by simp at hu
  | _ :: _, [], _, _, _, _, _, hv => by simp at hv
  | x :: xs, y :: ys, h, 0, u, v, hu, hv => by
    simp only [List.getElem?_cons_zero, Option.some.injEq] at hu hv
    subst hu; subst hv
    simp only [noSelfMatch, List.zip_cons_cons, List.all_cons, Bool.and_eq_true,
      bne_iff_ne, ne_eq] at h
    exact h.1
  | x :: xs, y :: ys, h, i+1, u, v, hu, hv => by
    have h' : noSelfMatch idOf xs ys = true := by
      simp only [noSelfMatch, List.zip_cons_cons, List.all_cons, Bool.and_eq_true] at h
      exact h.2
    exact noSelfMatch_ne idOf xs ys h' i u v (by simpa using hu) (by simpa using hv)

/-- Modelled from the spec: `deriveKey(secret, label) → key` is a deterministic
one-way function (the source calls Node's PBKDF2, a primitive external to the
repository). Symbolically, the derived key is the pair of its inputs: the same
`(password, salt)` always yields the same key, and distinct inputs yield distinct
keys (the ideal-KDF reading of the spec's one-way-function contract). -/
structure DerivedKey where
  password : String
  salt : String
deriving DecidableEq

/-- `deriveUserKey(password, salt)` (crypto.js lines 17-19): PBKDF2 with the user's
email as the salt, in the symbolic key model. -/
def deriveUserKey (password salt : String) : DerivedKey := ⟨password, salt⟩

/-- Lower-case hexadecimal digit for a value below 16, as produced by
`Buffer.toString('hex')`. -/
def hexDigitChar (n : Nat) : Char :=
  if n < 10 then Char.ofNat (48 + n) else Char.ofNat (87 + n)

/-- Hex encoding of a byte list, two digits per byte (`Buffer.toString('hex')`). -/
def hexEncode (bytes : List Nat) : String :=
  ⟨(bytes.map fun b => [hexDigitChar (b / 16 % 16), hexDigitChar (b % 16)]).flatten⟩

/-- `crypto.randomBytes(n)`: `n` fresh random bytes, drawn from the request's
entropy list (padded with zeros and reduced mod 256 so every entry is a byte). -/
def randomBytes (n : Nat) (entropy : List Nat) : List Nat :=
  (List.range n).map fun i => entropy.getD i 0 % 256

/-- Modelled from the spec: an AES-256-GCM field value as stored in a TEXT column.
The cipher itself is a Node primitive external to the repository, so ciphertexts
and authentication tags are symbolic terms recording the key, the hex-encoded
nonce and the sealed payload; `plain` covers ordinary strings such as the
`'PENDING'` placeholder. -/
inductive Cell (α : Type) where
  | plain (s : String)
  | aesCipher (key : DerivedKey) (ivHex : String) (data : α)
  | aesTag (key : DerivedKey) (ivHex : String) (data : α)
deriving DecidableEq

/-- Return shape `{ encrypted, iv, authTag }` of `encryptMatch`. -/
structure EncResult (α : Type) where
  encrypted : Cell α
  iv : String
  authTag : Cell α
deriving DecidableEq

/-- Authentication failure thrown by `decipher.final()` when the GCM tag does not
verify (the spec's `DecryptionError`). -/
inductive DecryptionError where
  | authFailure
deriving DecidableEq

/-- `encryptMatch(data, password, email)` (crypto.js lines 28-44): derive the user
key, draw a fresh 12-byte GCM nonce, and seal the payload; ciphertext and tag are
symbolic, the nonce is hex-encoded for storage. The payload type is a parameter:
the route seals the JSON recipient record (`JSON.stringify`/`JSON.parse`, a JS
builtin pair whose round trip is the identity, is absorbed by carrying the record
itself). -/
def encryptMatch {α : Type} (data : α) (password email : String) (entropy : List Nat) :
    EncResult α :=
  let key := deriveUserKey password email
  let ivHex := hexEncode (randomBytes 12 entropy)
  { encrypted := .aesCipher key ivHex data, iv := ivHex, authTag := .aesTag key ivHex data }

/-- `decryptMatch(encrypted, iv, authTag, password, email)` (crypto.js lines 55-70):
derive the key from the supplied password and email and run GCM open. In the ideal
AEAD model the tag verifies exactly when it is the genuine tag of this key, this
nonce and this ciphertext; on success the sealed payload is returned, otherwise
`decipher.final()` throws the authentication failure. -/
def decryptMatch {α : Type} [DecidableEq α] (encrypted : Cell α) (iv : String)
    (authTag : Cell α) (password email : String) : Except DecryptionError α :=
  let key := deriveUserKey password email
  match encrypted, authTag with
  | .aesCipher kc ivc dc, .aesTag kt ivt dt =>
    if kc = key ∧ ivc = iv ∧ kt = key ∧ ivt = iv ∧ dt = dc then .ok dc
    else .error .authFailure
  | _, _ => .error .authFailure

theorem hexEncode_length (bytes : List Nat) : (hexEncode bytes).length = 2 * bytes.length := by
  induction bytes with
  | nil => rfl
  | cons b bs ih =>
    simp only [hexEncode, List.map_cons, List.flatten, String.length] at ih ⊢
    simp_all [List.length_append]
    omega

theorem encryptMatch_iv_length {α : Type} (data : α) (password email : String)
    (entropy : List Nat) : (encryptMatch data password email entropy).iv.length = 24 := by
  simp [encryptMatch, hexEncode_length, randomBytes]

/-- C2: decrypting the output of `encryptMatch` with the same secret and label
returns exactly the sealed plaintext (round-trip identity of seal/open under the
same derived key). -/
theorem decryptMatch_encryptMatch_roundtrip (p secret label : String) (entropy : List Nat) :
    decryptMatch (encryptMatch p secret label entropy).encrypted
      (encryptMatch p secret label entropy).iv
      (encryptMatch p secret label entropy).authTag secret label = .ok p := by
  simp [encryptMatch, decryptMatch]

/-- C3: decrypting a payload sealed under one secret with a key derived from a
different secret (same label) fails with the authentication error and never
returns a payload. -/
theorem decryptMatch_wrong_secret (p secret secret2 label : String) (entropy : List Nat)
    (h : secret2 ≠ secret) :
    decryptMatch (encryptMatch p secret label entropy).encrypted
      (encryptMatch p secret label entropy).iv
      (encryptMatch p secret label entropy).authTag secret2 label =
      .error .authFailure := by
  simp only [encryptMatch, decryptMatch]
  rw [if_neg]
  intro hc
  exact h (congrArg DerivedKey.password hc.1).symm

/-- Witness for C3 at concrete secrets. -/
theorem decryptMatch_wrong_secret_witness :
    "pw2" ≠ "pw1" ∧
      decryptMatch (encryptMatch "payload" "pw1" "user@host" [1, 2, 3]).encrypted
        (encryptMatch "payload" "pw1" "user@host" [1, 2, 3]).iv
        (encryptMatch "payload" "pw1" "user@host" [1, 2, 3]).authTag "pw2" "user@host" =
        .error .authFailure :=
  ⟨by decide, decryptMatch_wrong_secret "payload" "pw1" "pw2" "user@host" [1, 2, 3]
    (by decide)⟩

/-- C1: whenever `generateRandomDerangement` returns normally on a participant list
of size at least 2 with distinct ids, the returned recipient list is a permutation
of the input list and `recipients[i].id ≠ users[i].id` at every index. -/
theorem generateRandomDerangement_isDerangement (g : Nat → Nat → Nat)
    (users recipients : List User) (hlen : 2 ≤ users.length)
    (hids : (users.map User.id).Nodup)
    (h : generateRandomDerangement g users = .ok recipients) :
    recipients.Perm users ∧
      ∀ (i : Nat) (u v : User), users[i]? = some u → recipients[i]? = some v →
        u.id ≠ v.id := by
  unfold generateRandomDerangement at h
  rw [if_neg (by omega)] at h
  split at h
  · next hsome =>
    cases h
    obtain ⟨hperm, hvalid⟩ := derangeAttempts_eq_some User.id g users 100 0 _ hsome
    exact ⟨hperm, fun i u v hu hv => noSelfMatch_ne User.id users _ hvalid i u v hu hv⟩
  · cases h

/-- Participant used by the concrete witnesses below. -/
def wUserA : User := ⟨1, 1, "a", "A", "bcrypt:pw", true⟩

/-- Second participant used by the concrete witnesses below. -/
def wUserB : User := ⟨2, 1, "b", "B", "bcrypt:pw2", true⟩

/-- Witness for C1 on the two-participant list, where the generator returns the
swap. -/
theorem generateRandomDerangement_isDerangement_witness :
    ([wUserB, wUserA] : List User).Perm [wUserA, wUserB] ∧
      ∀ (i : Nat) (u v : User), ([wUserA, wUserB] : List User)[i]? = some u →
        ([wUserB, wUserA] : List User)[i]? = some v → u.id ≠ v.id :=
  generateRandomDerangement_isDerangement (fun _ _ => 0) [wUserA, wUserB] [wUserB, wUserA]
    (by decide) (by decide) (by rfl)

/-- Plaintext payload `{recipientId, recipientName, recipientEmail}` sealed for a
giver (match.js lines 111-115 and 163-167). -/
structure MatchData where
  recipientId : Nat
  recipientName : String
  recipientEmail : String
deriving DecidableEq

/-- Payload built from a recipient row, as in
`JSON.stringify({recipientId: recipient.id, ...})`. -/
def mkMatchData (recipient : User) : MatchData :=
  ⟨recipient.id, recipient.name, recipient.email⟩

/-- Row of the `events` table (db/init.js), restricted to the columns the match
subsystem reads or writes; the DATE columns are kept as their stored text. -/
structure EventRec where
  id : Nat
  max_spend : Int
  bonus_item : Option String
  theme : Option String
  match_deadline : String
  gift_deadline : String
  all_registered : Bool
  matches_generated : Bool
deriving DecidableEq

/-- Row of the `matches` table (db/init.js): `encrypted_data`, `iv` and `auth_tag`
are TEXT columns holding either the `'PENDING'` placeholder or the output of
`encryptMatch`. -/
structure MatchRow where
  id : Nat
  event_id : Nat
  giver_id : Nat
  recipient_id : Nat
  encrypted_data : Cell MatchData
  iv : String
  auth_tag : Cell MatchData
deriving DecidableEq

/-- Persisted state read and written by the match route: the three tables plus the
AUTOINCREMENT counter of the `matches` table. -/
structure Db where
  users : List User
  events : List EventRec
  matchRows : List MatchRow
  nextMatchId : Nat
deriving DecidableEq

/-- `INSERT INTO matches (event_id, giver_id, recipient_id, encrypted_data, iv,
auth_tag) VALUES (?, ?, ?, ?, ?, ?)`: appends a row under the next AUTOINCREMENT
id. -/
def Db.insertMatch (db : Db) (eventId giverId recipientId : Nat)
    (enc : Cell MatchData) (iv : String) (tag : Cell MatchData) : Db :=
  let row : MatchRow :=
    { id := db.nextMatchId, event_id := eventId, giver_id := giverId,
      recipient_id := recipientId, encrypted_data := enc, iv := iv, auth_tag := tag }
  { db with matchRows := db.matchRows ++ [row], nextMatchId := db.nextMatchId + 1 }

/-- Modelled from the spec: `bcrypt.compare(password, hash)` (an external library)
verifies a supplied secret against a stored one-way hash, returning pass/fail.
Symbolically a stored hash is the tagged string `"bcrypt:" ++ password` and
verifies exactly that password. -/
def bcryptCompare (password hash : String) : Bool :=
  hash == "bcrypt:" ++ password

/-- Insertion step of the `ORDER BY id` model. -/
def insertById (u : User) : List User → List User
  | [] => [u]
  | v :: vs => if u.id ≤ v.id then u :: v :: vs else v :: insertById u vs

/-- `SELECT ... FROM users WHERE event_id = ? ORDER BY id`: the filtered rows in
ascending id order (insertion sort). -/
def sortById (l : List User) : List User := l.foldr insertById []

/-- Error responses of `GET /api/match/my-match` (match.js lines 58-211): the 400
missing-password and not-all-registered answers, the 401 invalid-password answer,
the 500 generation-failure and decryption-failure answers, and the 500 fallback of
the outer catch (reached when a lookup that the code dereferences comes back
empty). -/
inductive ApiError where
  | passwordRequired
  | invalidPassword
  | notAllRegistered
  | generationFailed
  | decryptFailed
  | internalError
deriving DecidableEq

/-- `rules` object of the success response (match.js lines 197-201). -/
structure RulesOut where
  maxSpend : Int
  bonusItem : Option String
  theme : Option String
deriving DecidableEq

/-- Success response of `GET /api/match/my-match` (match.js lines 192-202). -/
structure MatchResponse where
  name : String
  email : String
  rules : RulesOut
deriving DecidableEq

/-- Final step of the route (match.js lines 180-206): decrypt the stored row with
the freshly derived key and answer with the recipient identity from the payload
plus the event's `{maxSpend, bonusItem, theme}`; a decryption failure — or the
dereference of a missing event inside the same try block — yields the 500
decryption-failure answer. -/
def decryptAndRespond (pw : String) (user : User) (eventOpt : Option EventRec)
    (row : MatchRow) : Except ApiError MatchResponse :=
  match decryptMatch row.encrypted_data row.iv row.auth_tag pw user.email with
  | .error _ => .error .decryptFailed
  | .ok md =>
    match eventOpt with
    | none => .error .decryptFailed
    | some event =>
      .ok { name := md.recipientName, email := md.recipientEmail,
            rules := { maxSpend := event.max_spend, bonusItem := event.bonus_item,
                       theme := event.theme } }

/-- Tail of the route once a match row is at hand (match.js lines 159-206): if the
row still holds the `'PENDING'` placeholder, fetch the recipient, seal the payload
now, update the row in place and re-read it; then decrypt and respond. `k` counts
the entropy already consumed by this request. -/
def revealFromRow (db : Db) (user : User) (pw : String) (ivs : Nat → List Nat)
    (k : Nat) (eventOpt : Option EventRec) (row : MatchRow) :
    Except ApiError MatchResponse × Db :=
  if row.encrypted_data = Cell.plain "PENDING" then
    match db.users.find? (fun u => u.id == row.recipient_id) with
    | none => (.error .internalError, db)
    | some recipient =>
      let enc := encryptMatch (mkMatchData recipient) pw user.email (ivs k)
      let db2 := { db with matchRows := db.matchRows.map fun r =>
        if r.id = row.id then
          { r with encrypted_data := enc.encrypted, iv := enc.iv, auth_tag := enc.authTag }
        else r }
      match db2.matchRows.find? (fun r => r.id == row.id) with
      | none => (.error .internalError, db2)
      | some row2 => (decryptAndRespond pw user eventOpt row2, db2)
  else (decryptAndRespond pw user eventOpt row, db)

/-- Generation loop of the route (match.js lines 105-144): one INSERT per
participant in id order; the requesting user's row is sealed immediately with the
password at hand, every other row gets the `'PENDING'` placeholder in all three
cipher fields. Returns the updated state and the entropy consumed. -/
def insertMatchLoop (uid : Nat) (pw email : String) (ivs : Nat → List Nat)
    (eventId : Nat) : List (User × User) → Nat → Db → Db × Nat
  | [], k, db => (db, k)
  | (giver, recipient) :: rest, k, db =>
    if giver.id = uid then
      let enc := encryptMatch (mkMatchData recipient) pw email (ivs k)
      insertMatchLoop uid pw email ivs eventId rest (k+1)
        (db.insertMatch eventId giver.id recipient.id enc.encrypted enc.iv enc.authTag)
    else
      insertMatchLoop uid pw email ivs eventId rest k
        (db.insertMatch eventId giver.id recipient.id (.plain "PENDING") "PENDING"
          (.plain "PENDING"))

/-- `GET /api/match/my-match` (match.js lines 58-211). Randomness is passed in
explicitly: `g` feeds the derangement generator's shuffles, `ivs k` is the byte
stream of the k-th `crypto.randomBytes(12)` call of the request. The JS falsy
check `if (!password)` rejects both a missing and an empty password. -/
def myMatchHandler (g : Nat → Nat → Nat) (ivs : Nat → List Nat) (db : Db)
    (userId : Nat) (password : Option String) : Except ApiError MatchResponse × Db :=
  match password with
  | none => (.error .passwordRequired, db)
  | some pw =>
    if pw = "" then (.error .passwordRequired, db)
    else
      match db.users.find? (fun u => u.id == userId) with
      | none => (.error .internalError, db)
      | some user =>
        if bcryptCompare pw user.password_hash then
          let eventOpt := db.events.find? (fun e => e.id == user.event_id)
          let allUsers := db.users.filter (fun u => u.event_id == user.event_id)
          if allUsers.all (fun u => u.is_registered) then
            match db.matchRows.find? (fun r => r.giver_id == user.id) with
            | some row => revealFromRow db user pw ivs 0 eventOpt row
            | none =>
              match eventOpt with
              | none => (.error .internalError, db)
              | some event =>
                if event.matches_generated then (.error .internalError, db)
                else
                  match generateRandomDerangement g
                      (sortById (db.users.filter fun u => u.event_id == user.event_id)) with
                  | .error _ => (.error .generationFailed, db)
                  | .ok recipients =>
                    let lst := sortById (db.users.filter fun u => u.event_id == user.event_id)
                    let step := insertMatchLoop user.id pw user.email ivs user.event_id
                      (lst.zip recipients) 0 db
                    let db3 := { step.1 with events := step.1.events.map fun e =>
                      if e.id = user.event_id then { e with matches_generated := true }
                      else e }
                    match db3.matchRows.find? (fun r => r.giver_id == user.id) with
                    | none => (.error .internalError, db3)
                    | some row => revealFromRow db3 user pw ivs step.2 eventOpt row
          else (.error .notAllRegistered, db)
        else (.error .invalidPassword, db)

/-- Rows produced by the generation loop when it starts from AUTOINCREMENT value
`rowId` with `k` entropy draws already consumed: the pure characterisation of
`insertMatchLoop`. -/
def genRows (uid : Nat) (pw email : String) (ivs : Nat → List Nat) (eventId : Nat) :
    List (User × User) → Nat → Nat → List MatchRow
  | [], _, _ => []
  | (giver, recipient) :: rest, rowId, k =>
    if giver.id = uid then
      { id := rowId, event_id := eventId, giver_id := giver.id,
        recipient_id := recipient.id,
        encrypted_data := (encryptMatch (mkMatchData recipient) pw email (ivs k)).encrypted,
        iv := (encryptMatch (mkMatchData recipient) pw email (ivs k)).iv,
        auth_tag := (encryptMatch (mkMatchData recipient) pw email (ivs k)).authTag }
        :: genRows uid pw email ivs eventId rest (rowId+1) (k+1)
    else
      { id := rowId, event_id := eventId, giver_id := giver.id,
        recipient_id := recipient.id, encrypted_data := .plain "PENDING",
        iv := "PENDING", auth_tag := .plain "PENDING" }
        :: genRows uid pw email ivs eventId rest (rowId+1) k

theorem find?_map_eq {α β : Type _} (f : α → β) (p : β → Bool) (l : List α) :
    (l.map f).find? p = (l.find? fun a => p (f a)).map f := by
  induction l with
  | nil => rfl
  | cons x xs ih =>
    simp only [List.map_cons, List.find?]
    cases hp : p (f x) <;> simp [hp, ih]

/-- C8: a reveal attempted with the correct secret while at least one participant
of the event is unregistered fails with the not-all-registered error and leaves
the state — in particular the assignment table — unchanged. -/
theorem reveal_notReady (g : Nat → Nat → Nat) (ivs : Nat → List Nat) (db : Db)
    (uid : Nat) (pw : String) (user : User)
    (hpw0 : pw ≠ "")
    (huser : db.users.find? (fun u => u.id == uid) = some user)
    (hpw : bcryptCompare pw user.password_hash = true)
    (hunreg : (db.users.filter fun u => u.event_id == user.event_id).all
      (fun u => u.is_registered) = false) :
    myMatchHandler g ivs db uid (some pw) = (.error .notAllRegistered, db) := by
  simp [myMatchHandler, huser, hpw, hunreg, hpw0]

/-- Witness for C8: a two-participant event where the second participant has not
registered. -/
theorem reveal_notReady_witness :
    ("pw" : String) ≠ "" ∧
      myMatchHandler (fun _ _ => 0) (fun _ => [])
        ⟨[wUserA, { wUserB with is_registered := false }], [], [], 1⟩ 1 (some "pw") =
        (.error .notAllRegistered,
          ⟨[wUserA, { wUserB with is_registered := false }], [], [], 1⟩) :=
  ⟨by decide,
    reveal_notReady (fun _ _ => 0) (fun _ => [])
      ⟨[wUserA, { wUserB with is_registered := false }], [], [], 1⟩ 1 "pw" wUserA
      (by decide) (by rfl) (by rfl) (by rfl)⟩

theorem find?_map_upd (ms : List MatchRow) (rid : Nat) (e1 : Cell MatchData)
    (s : String) (e2 : Cell MatchData) (row : MatchRow)
    (h : ms.find? (fun r => r.id == rid) = some row) :
    (ms.map fun r => if r.id = rid then
        { r with encrypted_data := e1, iv := s, auth_tag := e2 } else r).find?
      (fun r => r.id == rid) =
      some (if row.id = rid then
        { row with encrypted_data := e1, iv := s, auth_tag := e2 } else row) := by
  rw [find?_map_eq]
  have hcong : (fun a : MatchRow =>
      ((if a.id = rid then { a with encrypted_data := e1, iv := s, auth_tag := e2 }
        else a).id == rid)) = fun a : MatchRow => a.id == rid := by
    funext a
    by_cases ha : a.id = rid <;> simp [ha]
  rw [hcong, h]
  rfl

theorem find?_map_upd_giver (ms : List MatchRow) (rid gid : Nat) (e1 : Cell MatchData)
    (s : String) (e2 : Cell MatchData) :
    (ms.map fun r => if r.id = rid then
        { r with encrypted_data := e1, iv := s, auth_tag := e2 } else r).find?
      (fun r => r.giver_id == gid) =
      (ms.find? (fun r => r.giver_id == gid)).map fun r => if r.id = rid then
        { r with encrypted_data := e1, iv := s, auth_tag := e2 } else r := by
  rw [find?_map_eq]
  have hcong : (fun a : MatchRow =>
      ((if a.id = rid then { a with encrypted_data := e1, iv := s, auth_tag := e2 }
        else a).giver_id == gid)) = fun a : MatchRow => a.giver_id == gid := by
    funext a
    by_cases ha : a.id = rid <;> simp [ha]
  rw [hcong]

theorem revealFromRow_pending (db : Db) (user : User) (pw : String)
    (ivs : Nat → List Nat) (k : Nat) (event : EventRec) (row : MatchRow)
    (recipient : User)
    (hpending : row.encrypted_data = Cell.plain "PENDING")
    (hrec : db.users.find? (fun u => u.id == row.recipient_id) = some recipient)
    (hrowid : db.matchRows.find? (fun r => r.id == row.id) = some row) :
    revealFromRow db user pw ivs k (some event) row =
      (.ok ⟨recipient.name, recipient.email,
        ⟨event.max_spend, event.bonus_item, event.theme⟩⟩,
       { db with matchRows := db.matchRows.map fun r =>
          if r.id = row.id then
            { r with
              encrypted_data :=
                (encryptMatch (mkMatchData recipient) pw user.email (ivs k)).encrypted,
              iv := (encryptMatch (mkMatchData recipient) pw user.email (ivs k)).iv,
              auth_tag :=
                (encryptMatch (mkMatchData recipient) pw user.email (ivs k)).authTag }
          else r }) := by
  have hupd := find?_map_upd db.matchRows row.id
    (encryptMatch (mkMatchData recipient) pw user.email (ivs k)).encrypted
    (encryptMatch (mkMatchData recipient) pw user.email (ivs k)).iv
    (encryptMatch (mkMatchData recipient) pw user.email (ivs k)).authTag row hrowid
  rw [if_pos rfl] at hupd
  simp only [revealFromRow, hpending, hrec, if_pos rfl, hupd]
  simp [decryptAndRespond, decryptMatch, encryptMatch, mkMatchData]

theorem revealFromRow_sealed (db : Db) (user : User) (pw : String)
    (ivs : Nat → List Nat) (k : Nat) (event : EventRec) (row : MatchRow)
    (md : MatchData) (ivh : String)
    (hcipher : row.encrypted_data = Cell.aesCipher (deriveUserKey pw user.email) ivh md)
    (hiv : row.iv = ivh)
    (htag : row.auth_tag = Cell.aesTag (deriveUserKey pw user.email) ivh md) :
    revealFromRow db user pw ivs k (some event) row =
      (.ok ⟨md.recipientName, md.recipientEmail,
        ⟨event.max_spend, event.bonus_item, event.theme⟩⟩, db) := by
  rw [revealFromRow, if_neg (by simp [hcipher])]
  simp [decryptAndRespond, decryptMatch, hcipher, hiv, htag]

/-- C5: sealing is idempotent — with the correct secret, the first reveal seals
the giver's pending row and the second reveal reuses the stored ciphertext: both
return the same recipient identity, only the first transitions the row away from
the placeholder, and the second request changes no state. -/
theorem reveal_sealing_idempotent (g g2 : Nat → Nat → Nat)
    (ivs ivs2 : Nat → List Nat) (db : Db) (uid : Nat) (pw : String) (user : User)
    (row : MatchRow) (recipient : User) (event : EventRec)
    (hpw0 : pw ≠ "")
    (huser : db.users.find? (fun u => u.id == uid) = some user)
    (hpw : bcryptCompare pw user.password_hash = true)
    (hreg : (db.users.filter fun u => u.event_id == user.event_id).all
      (fun u => u.is_registered) = true)
    (hrow : db.matchRows.find? (fun r => r.giver_id == user.id) = some row)
    (hpending : row.encrypted_data = Cell.plain "PENDING")
    (hrowid : db.matchRows.find? (fun r => r.id == row.id) = some row)
    (hrec : db.users.find? (fun u => u.id == row.recipient_id) = some recipient)
    (hev : db.events.find? (fun e => e.id == user.event_id) = some event) :
    (myMatchHandler g ivs db uid (some pw)).1 =
        .ok ⟨recipient.name, recipient.email,
          ⟨event.max_spend, event.bonus_item, event.theme⟩⟩ ∧
      (myMatchHandler g2 ivs2 (myMatchHandler g ivs db uid (some pw)).2 uid
          (some pw)).1 = (myMatchHandler g ivs db uid (some pw)).1 ∧
      (myMatchHandler g2 ivs2 (myMatchHandler g ivs db uid (some pw)).2 uid
          (some pw)).2 = (myMatchHandler g ivs db uid (some pw)).2 ∧
      ∃ row2 : MatchRow,
        (myMatchHandler g ivs db uid (some pw)).2.matchRows.find?
            (fun r => r.id == row.id) = some row2 ∧
          row2.encrypted_data ≠ Cell.plain "PENDING" := by
  have h1 : myMatchHandler g ivs db uid (some pw) =
      revealFromRow db user pw ivs 0 (db.events.find? fun e => e.id == user.event_id)
        row := by
    simp [myMatchHandler, huser, hpw, hreg, hrow, hpw0]
  rw [hev, revealFromRow_pending db user pw ivs 0 event row recipient hpending hrec
    hrowid] at h1
  have hupd := find?_map_upd db.matchRows row.id
    (encryptMatch (mkMatchData recipient) pw user.email (ivs 0)).encrypted
    (encryptMatch (mkMatchData recipient) pw user.email (ivs 0)).iv
    (encryptMatch (mkMatchData recipient) pw user.email (ivs 0)).authTag row hrowid
  rw [if_pos rfl] at hupd
  have hgiver := find?_map_upd_giver db.matchRows row.id user.id
    (encryptMatch (mkMatchData recipient) pw user.email (ivs 0)).encrypted
    (encryptMatch (mkMatchData recipient) pw user.email (ivs 0)).iv
    (encryptMatch (mkMatchData recipient) pw user.email (ivs 0)).authTag
  rw [hrow] at hgiver
  have h2 : myMatchHandler g2 ivs2 (myMatchHandler g ivs db uid (some pw)).2 uid
      (some pw) =
      revealFromRow (myMatchHandler g ivs db uid (some pw)).2 user pw ivs2 0
        (some event)
        { row with
          encrypted_data :=
            (encryptMatch (mkMatchData recipient) pw user.email (ivs 0)).encrypted,
          iv := (encryptMatch (mkMatchData recipient) pw user.email (ivs 0)).iv,
          auth_tag :=
            (encryptMatch (mkMatchData recipient) pw user.email (ivs 0)).authTag } := by
    rw [h1]
    simp only [myMatchHandler]
    simp [huser, hpw, hreg, hpw0, hgiver, hev]
  rw [h1] at h2 ⊢
  rw [revealFromRow_sealed _ user pw ivs2 0 event _ (mkMatchData recipient)
    (hexEncode (randomBytes 12 (ivs 0))) rfl rfl rfl] at h2
  refine ⟨rfl, ?_, ?_, ?_⟩
  · rw [h2]
    rfl
  · rw [h2]
  · exact ⟨_, hupd, by simp [encryptMatch]⟩

/-- Event used by the concrete witnesses below. -/
def wEvent : EventRec := ⟨1, 30, none, none, "2024-12-01", "2024-12-24", true, true⟩

/-- Pending assignment row used by the sealing witnesses. -/
def wRowPending : MatchRow := ⟨1, 1, 1, 2, .plain "PENDING", "PENDING", .plain "PENDING"⟩

/-- State with a generated event whose first giver's row is still pending. -/
def wDbPending : Db := ⟨[wUserA, wUserB], [wEvent], [wRowPending], 2⟩

/-- Witness for C5 at the concrete pending-row state. -/
theorem reveal_sealing_idempotent_witness :
    (myMatchHandler (fun _ _ => 0) (fun _ => []) wDbPending 1 (some "pw")).1 =
        .ok ⟨wUserB.name, wUserB.email,
          ⟨wEvent.max_spend, wEvent.bonus_item, wEvent.theme⟩⟩ ∧
      (myMatchHandler (fun _ _ => 1) (fun _ => [7])
          (myMatchHandler (fun _ _ => 0) (fun _ => []) wDbPending 1 (some "pw")).2 1
          (some "pw")).1 =
        (myMatchHandler (fun _ _ => 0) (fun _ => []) wDbPending 1 (some "pw")).1 ∧
      (myMatchHandler (fun _ _ => 1) (fun _ => [7])
          (myMatchHandler (fun _ _ => 0) (fun _ => []) wDbPending 1 (some "pw")).2 1
          (some "pw")).2 =
        (myMatchHandler (fun _ _ => 0) (fun _ => []) wDbPending 1 (some "pw")).2 ∧
      ∃ row2 : MatchRow,
        (myMatchHandler (fun _ _ => 0) (fun _ => []) wDbPending 1
            (some "pw")).2.matchRows.find? (fun r => r.id == wRowPending.id) =
            some row2 ∧
          row2.encrypted_data ≠ Cell.plain "PENDING" :=
  reveal_sealing_idempotent (fun _ _ => 0) (fun _ _ => 1) (fun _ => []) (fun _ => [7])
    wDbPending 1 "pw" wUserA wRowPending wUserB wEvent (by decide) (by rfl) (by rfl)
    (by rfl) (by rfl) (by rfl) (by rfl) (by rfl) (by rfl)

/-- C9 (amended): a successful reveal of an already-sealed row returns the
recipient identity from the sealed payload together with the event's `{maxSpend,
bonusItem, theme}` read verbatim from the stored event record, and changes no
state; the two deadline fields of the event are not part of this response. -/
theorem reveal_returns_rules_verbatim (g : Nat → Nat → Nat) (ivs : Nat → List Nat)
    (db : Db) (uid : Nat) (pw : String) (user : User) (row : MatchRow)
    (md : MatchData) (ivh : String) (event : EventRec)
    (hpw0 : pw ≠ "")
    (huser : db.users.find? (fun u => u.id == uid) = some user)
    (hpw : bcryptCompare pw user.password_hash = true)
    (hreg : (db.users.filter fun u => u.event_id == user.event_id).all
      (fun u => u.is_registered) = true)
    (hrow : db.matchRows.find? (fun r => r.giver_id == user.id) = some row)
    (hcipher : row.encrypted_data = Cell.aesCipher (deriveUserKey pw user.email) ivh md)
    (hiv : row.iv = ivh)
    (htag : row.auth_tag = Cell.aesTag (deriveUserKey pw user.email) ivh md)
    (hev : db.events.find? (fun e => e.id == user.event_id) = some event) :
    myMatchHandler g ivs db uid (some pw) =
      (.ok ⟨md.recipientName, md.recipientEmail,
        ⟨event.max_spend, event.bonus_item, event.theme⟩⟩, db) := by
  have h1 : myMatchHandler g ivs db uid (some pw) =
      revealFromRow db user pw ivs 0 (db.events.find? fun e => e.id == user.event_id)
        row := by
    simp [myMatchHandler, huser, hpw, hreg, hrow, hpw0]
  rw [hev, revealFromRow_sealed db user pw ivs 0 event row md ivh hcipher hiv htag]
    at h1
  exact h1

/-- Sealed cipher fields used by the concrete sealed-row states below. -/
def wSealedEnc : EncResult MatchData := encryptMatch (mkMatchData wUserB) "pw" "a" []

/-- Sealed assignment row for giver 1 and recipient 2. -/
def wRowSealed : MatchRow :=
  ⟨1, 1, 1, 2, wSealedEnc.encrypted, wSealedEnc.iv, wSealedEnc.authTag⟩

/-- Sealed-row state with the stored match deadline `2024-12-01`. -/
def wDbSealedA : Db := ⟨[wUserA, wUserB], [wEvent], [wRowSealed], 2⟩

/-- Sealed-row state identical to `wDbSealedA` except for the match deadline. -/
def wDbSealedB : Db :=
  ⟨[wUserA, wUserB], [{ wEvent with match_deadline := "2025-01-01" }], [wRowSealed], 2⟩

/-- Witness for the amended C9 at the concrete sealed-row state. -/
theorem reveal_returns_rules_verbatim_witness :
    myMatchHandler (fun _ _ => 0) (fun _ => []) wDbSealedA 1 (some "pw") =
      (.ok ⟨(mkMatchData wUserB).recipientName, (mkMatchData wUserB).recipientEmail,
        ⟨wEvent.max_spend, wEvent.bonus_item, wEvent.theme⟩⟩, wDbSealedA) :=
  reveal_returns_rules_verbatim (fun _ _ => 0) (fun _ => []) wDbSealedA 1 "pw" wUserA
    wRowSealed (mkMatchData wUserB) wSealedEnc.iv wEvent (by decide) (by rfl) (by rfl)
    (by rfl) (by rfl) (by rfl) (by rfl) (by rfl) (by rfl)

/-- Counterexample to C9 as stated: two stored event records that differ only in
their match deadline produce identical reveal responses, so the response does not
carry the `matchDeadline`/`giftDeadline` fields of the rules snapshot. -/
theorem reveal_rules_omit_deadlines_counterexample :
    (myMatchHandler (fun _ _ => 0) (fun _ => []) wDbSealedA 1 (some "pw")).1 =
        .ok ⟨"B", "b", ⟨30, none, none⟩⟩ ∧
      (myMatchHandler (fun _ _ => 0) (fun _ => []) wDbSealedB 1 (some "pw")).1 =
        .ok ⟨"B", "b", ⟨30, none, none⟩⟩ ∧
      wDbSealedA.events.map EventRec.match_deadline ≠
        wDbSealedB.events.map EventRec.match_deadline :=
  ⟨by rfl, by rfl, by decide⟩

theorem generateRandomDerangement_perm (g : Nat → Nat → Nat)
    (users recipients : List User)
    (h : generateRandomDerangement g users = .ok recipients) : recipients.Perm users := by
  unfold generateRandomDerangement at h
  split at h
  · cases h
  · split at h
    · next hsome =>
      cases h
      exact (derangeAttempts_eq_some User.id g users 100 0 _ hsome).1
    · cases h

theorem insertMatchLoop_eq (uid : Nat) (pw email : String) (ivs : Nat → List Nat)
    (eventId : Nat) :
    ∀ (pairs : List (User × User)) (k : Nat) (db : Db),
      insertMatchLoop uid pw email ivs eventId pairs k db =
        ({ db with
            matchRows := db.matchRows ++
              genRows uid pw email ivs eventId pairs db.nextMatchId k,
            nextMatchId := db.nextMatchId + pairs.length },
          k + pairs.countP fun p => p.1.id == uid)
  | [], k, db => by simp [insertMatchLoop, genRows]
  | (giver, recipient) :: rest, k, db => by
    by_cases hg : giver.id = uid
    · rw [insertMatchLoop, if_pos hg,
        insertMatchLoop_eq uid pw email ivs eventId rest (k+1) _, genRows, if_pos hg]
      simp [Db.insertMatch, List.countP_cons, hg, List.append_assoc]
      omega
    · rw [insertMatchLoop, if_neg hg,
        insertMatchLoop_eq uid pw email ivs eventId rest k _, genRows, if_neg hg]
      simp [Db.insertMatch, List.countP_cons, hg, List.append_assoc]
      omega

theorem genRows_map_giver (uid : Nat) (pw email : String) (ivs : Nat → List Nat)
    (eventId : Nat) :
    ∀ (pairs : List (User × User)) (rowId k : Nat),
      (genRows uid pw email ivs eventId pairs rowId k).map MatchRow.giver_id =
        pairs.map fun p => p.1.id
  | [], _, _ => rfl
  | (giver, recipient) :: rest, rowId, k => by
    by_cases hg : giver.id = uid <;>
      simp [genRows, hg, genRows_map_giver uid pw email ivs eventId rest]

theorem genRows_map_recipient (uid : Nat) (pw email : String) (ivs : Nat → List Nat)
    (eventId : Nat) :
    ∀ (pairs : List (User × User)) (rowId k : Nat),
      (genRows uid pw email ivs eventId pairs rowId k).map MatchRow.recipient_id =
        pairs.map fun p => p.2.id
  | [], _, _ => rfl
  | (giver, recipient) :: rest, rowId, k => by
    by_cases hg : giver.id = uid <;>
      simp [genRows, hg, genRows_map_recipient uid pw email ivs eventId rest]

theorem genRows_rowState (uid : Nat) (pw email : String) (ivs : Nat → List Nat)
    (eventId : Nat) :
    ∀ (pairs : List (User × User)) (rowId k : Nat) (r : MatchRow),
      r ∈ genRows uid pw email ivs eventId pairs rowId k →
        (r.giver_id ≠ uid → r.encrypted_data = Cell.plain "PENDING" ∧
          r.iv = "PENDING" ∧ r.auth_tag = Cell.plain "PENDING") ∧
        (r.giver_id = uid → ∃ ivh md,
          r.encrypted_data = Cell.aesCipher (deriveUserKey pw email) ivh md ∧
          r.iv = ivh ∧ r.auth_tag = Cell.aesTag (deriveUserKey pw email) ivh md ∧
          ivh.length = 24)
  | [], _, _, r, hr => by simp [genRows] at hr
  | (giver, recipient) :: rest, rowId, k, r, hr => by
    by_cases hg : giver.id = uid
    · rw [genRows, if_pos hg] at hr
      rcases List.mem_cons.mp hr with rfl | hr2


      · refine ⟨fun hne => absurd hg hne, fun _ => ?_⟩
        exact ⟨hexEncode (randomBytes 12 (ivs k)), mkMatchData recipient,
          by simp [encryptMatch], by simp [encryptMatch], by simp [encryptMatch],
          by simp [hexEncode_length, randomBytes]⟩
      · exact genRows_rowState uid pw email ivs eventId rest (rowId+1) (k+1) r hr2
    · rw [genRows, if_neg hg] at hr
      rcases List.mem_cons.mp hr with rfl | hr2
      · exact ⟨fun _ => ⟨rfl, rfl, rfl⟩, fun h => absurd h hg⟩
      · exact genRows_rowState uid pw email ivs eventId rest (rowId+1) k r hr2

/-- C6 (amended): on the first generation trigger the route derives all rows from
a single call of the derangement generator, writes one Assignment row per
participant of the event (in id order) and marks the event generated; the
triggering giver's own row is sealed immediately with the supplied password,
while every other created row holds the pending placeholder in all three cipher
fields. -/
theorem first_trigger_generates_rows (g : Nat → Nat → Nat) (ivs : Nat → List Nat)
    (db : Db) (uid : Nat) (pw : String) (user : User) (event : EventRec)
    (recipients : List User)
    (hpw0 : pw ≠ "")
    (huser : db.users.find? (fun u => u.id == uid) = some user)
    (hpw : bcryptCompare pw user.password_hash = true)
    (hreg : (db.users.filter fun u => u.event_id == user.event_id).all
      (fun u => u.is_registered) = true)
    (hnorow : db.matchRows.find? (fun r => r.giver_id == user.id) = none)
    (hev : db.events.find? (fun e => e.id == user.event_id) = some event)
    (hflag : event.matches_generated = false)
    (hder : generateRandomDerangement g
      (sortById (db.users.filter fun u => u.event_id == user.event_id)) =
      .ok recipients) :
    (myMatchHandler g ivs db uid (some pw)).2.matchRows.map MatchRow.giver_id =
        db.matchRows.map MatchRow.giver_id ++
          (sortById (db.users.filter fun u => u.event_id == user.event_id)).map
            User.id ∧
      (myMatchHandler g ivs db uid (some pw)).2.matchRows.map MatchRow.recipient_id =
        db.matchRows.map MatchRow.recipient_id ++ recipients.map User.id ∧
      (myMatchHandler g ivs db uid (some pw)).2.events.find?
          (fun e => e.id == user.event_id) =
        some { event with matches_generated := true } ∧
      ∀ r ∈ (myMatchHandler g ivs db uid (some pw)).2.matchRows.drop
          db.matchRows.length,
        (r.giver_id ≠ user.id → r.encrypted_data = Cell.plain "PENDING" ∧
          r.iv = "PENDING" ∧ r.auth_tag = Cell.plain "PENDING") ∧
        (r.giver_id = user.id → ∃ ivh md,
          r.encrypted_data = Cell.aesCipher (deriveUserKey pw user.email) ivh md ∧
          r.iv = ivh ∧
          r.auth_tag = Cell.aesTag (deriveUserKey pw user.email) ivh md ∧
          ivh.length = 24) := by
  have hperm := generateRandomDerangement_perm g _ recipients hder
  have hlen := hperm.length_eq
  have hstep := insertMatchLoop_eq user.id pw user.email ivs user.event_id
    ((sortById (db.users.filter fun u => u.event_id == user.event_id)).zip recipients)
    0 db
  have hdb2 : (myMatchHandler g ivs db uid (some pw)).2 =
      { users := db.users,
        events := db.events.map fun e =>
          if e.id = user.event_id then { e with matches_generated := true } else e,
        matchRows := db.matchRows ++ genRows user.id pw user.email ivs user.event_id
          ((sortById (db.users.filter fun u => u.event_id == user.event_id)).zip
            recipients) db.nextMatchId 0,
        nextMatchId := db.nextMatchId +
          ((sortById (db.users.filter fun u => u.event_id == user.event_id)).zip
            recipients).length } := by
    have hfind : (db.matchRows ++ genRows user.id pw user.email ivs user.event_id
        ((sortById (db.users.filter fun u => u.event_id == user.event_id)).zip
          recipients) db.nextMatchId 0).find? (fun r => r.giver_id == user.id) =
        (genRows user.id pw user.email ivs user.event_id
          ((sortById (db.users.filter fun u => u.event_id == user.event_id)).zip
            recipients) db.nextMatchId 0).find? (fun r => r.giver_id == user.id) := by
      rw [List.find?_append, hnorow, Option.none_or]
    simp only [myMatchHandler]
    simp [huser, hpw, hreg, hnorow, hev, hflag, hder, hpw0, hstep, hfind]
    split
    · simp
    · next x row hres =>
      have hmem := List.mem_of_find?_eq_some hres
      have hgid : row.giver_id = user.id := by
        have := List.find?_some hres
        simpa using this
      obtain ⟨ivh, md, hcip, _, _, _⟩ :=
        (genRows_rowState user.id pw user.email ivs user.event_id _ _ _ row hmem).2 hgid
      rw [revealFromRow, if_neg (by simp [hcip])]
  refine ⟨?_, ?_, ?_, ?_⟩
  · rw [hdb2]
    show (db.matchRows ++ _).map MatchRow.giver_id = _
    rw [List.map_append, genRows_map_giver]
    have : ((sortById (db.users.filter fun u => u.event_id == user.event_id)).zip
        recipients).map (fun p => p.1.id) =
        ((sortById (db.users.filter fun u => u.event_id == user.event_id)).zip
          recipients).map (User.id ∘ Prod.fst) := rfl
    rw [this, ← List.map_map, List.map_fst_zip _ _ (le_of_eq hlen.symm)]
  · rw [hdb2]
    show (db.matchRows ++ _).map MatchRow.recipient_id = _
    rw [List.map_append, genRows_map_recipient]
    have : ((sortById (db.users.filter fun u => u.event_id == user.event_id)).zip
        recipients).map (fun p => p.2.id) =
        ((sortById (db.users.filter fun u => u.event_id == user.event_id)).zip
          recipients).map (User.id ∘ Prod.snd) := rfl
    rw [this, ← List.map_map, List.map_snd_zip _ _ (le_of_eq hlen)]
  · rw [hdb2]
    show (db.events.map _).find? _ = _
    rw [find?_map_eq]
    have hcong : (fun a : EventRec =>
        ((if a.id = user.event_id then { a with matches_generated := true }
          else a).id == user.event_id)) = fun a : EventRec => a.id == user.event_id := by
      funext a
      by_cases ha : a.id = user.event_id <;> simp [ha]
    have hevid : event.id = user.event_id := by
      have := List.find?_some hev
      simpa using this
    rw [hcong, hev]
    simp [hevid]
  · rw [hdb2]
    show ∀ r ∈ (db.matchRows ++ _).drop db.matchRows.length, _
    rw [List.drop_left]
    intro r hr
    exact genRows_rowState user.id pw user.email ivs user.event_id _ _ _ r hr

/-- Event before generation, used by the generation witnesses. -/
def wEventNotGen : EventRec := { wEvent with matches_generated := false }

/-- Fully registered two-participant state before generation. -/
def wDbGen : Db := ⟨[wUserA, wUserB], [wEventNotGen], [], 1⟩

/-- Witness for the amended C6 at the concrete two-participant state. -/
theorem first_trigger_generates_rows_witness :
    (myMatchHandler (fun _ _ => 0) (fun _ => []) wDbGen 1 (some "pw")).2.matchRows.map
        MatchRow.giver_id =
      wDbGen.matchRows.map MatchRow.giver_id ++
        (sortById (wDbGen.users.filter fun u => u.event_id == wUserA.event_id)).map
          User.id ∧
      (myMatchHandler (fun _ _ => 0) (fun _ => []) wDbGen 1
          (some "pw")).2.matchRows.map MatchRow.recipient_id =
        wDbGen.matchRows.map MatchRow.recipient_id ++
          ([wUserB, wUserA] : List User).map User.id ∧
      (myMatchHandler (fun _ _ => 0) (fun _ => []) wDbGen 1 (some "pw")).2.events.find?
          (fun e => e.id == wUserA.event_id) =
        some { wEventNotGen with matches_generated := true } ∧
      ∀ r ∈ (myMatchHandler (fun _ _ => 0) (fun _ => []) wDbGen 1
          (some "pw")).2.matchRows.drop wDbGen.matchRows.length,
        (r.giver_id ≠ wUserA.id → r.encrypted_data = Cell.plain "PENDING" ∧
          r.iv = "PENDING" ∧ r.auth_tag = Cell.plain "PENDING") ∧
        (r.giver_id = wUserA.id → ∃ ivh md,
          r.encrypted_data = Cell.aesCipher (deriveUserKey "pw" wUserA.email) ivh md ∧
          r.iv = ivh ∧
          r.auth_tag = Cell.aesTag (deriveUserKey "pw" wUserA.email) ivh md ∧
          ivh.length = 24) :=
  first_trigger_generates_rows (fun _ _ => 0) (fun _ => []) wDbGen 1 "pw" wUserA
    wEventNotGen [wUserB, wUserA] (by decide) (by rfl) (by rfl) (by rfl) (by rfl)
    (by rfl) (by rfl) (by rfl)

/-- Counterexample to C6 as stated: on the first generation trigger the
triggering giver's own row (giver 1 here) is sealed immediately, so not every
created row is in the unsealed placeholder state. -/
theorem first_trigger_not_all_unsealed_counterexample :
    (myMatchHandler (fun _ _ => 0) (fun _ => []) wDbGen 1 (some "pw")).2.matchRows.map
        (fun r => r.encrypted_data == Cell.plain "PENDING") = [false, true] ∧
      (myMatchHandler (fun _ _ => 0) (fun _ => []) wDbGen 1 (some "pw")).2.matchRows.map
        MatchRow.giver_id = [1, 2] :=
  ⟨by rfl, by rfl⟩

/-- Counterexample to C7 as stated: the unsealed row written at generation time
holds the sentinel `'PENDING'`, not `"UNSEALED"`, in all three cipher fields. -/
theorem unsealed_sentinel_pending_counterexample :
    ((myMatchHandler (fun _ _ => 0) (fun _ => []) wDbGen 1
          (some "pw")).2.matchRows[1]?).map
        (fun r => (r.encrypted_data, r.iv, r.auth_tag)) =
      some (Cell.plain "PENDING", "PENDING", Cell.plain "PENDING") ∧
      ("PENDING" : String) ≠ "UNSEALED" :=
  ⟨by rfl, by decide⟩

/-- Well-formedness of a persisted assignment row: either unsealed, with the
placeholder `'PENDING'` in all three cipher fields, or sealed, with a symbolic
ciphertext and tag under one key and nonce and a 24-hex-digit (12-byte) nonce. -/
def RowWF (r : MatchRow) : Prop :=
  (r.encrypted_data = Cell.plain "PENDING" ∧ r.iv = "PENDING" ∧
    r.auth_tag = Cell.plain "PENDING") ∨
  ∃ key ivh d, r.encrypted_data = Cell.aesCipher key ivh d ∧ r.iv = ivh ∧
    r.auth_tag = Cell.aesTag key ivh d ∧ ivh.length = 24

theorem revealFromRow_preserves_rowWF (db : Db) (user : User) (pw : String)
    (ivs : Nat → List Nat) (k : Nat) (eventOpt : Option EventRec) (row : MatchRow)
    (hwf : ∀ r ∈ db.matchRows, RowWF r) :
    ∀ r ∈ (revealFromRow db user pw ivs k eventOpt row).2.matchRows, RowWF r := by
  rw [revealFromRow]
  split
  · split
    · exact hwf
    · next recipient hrec =>
      have hmap : ∀ r ∈ (db.matchRows.map fun r =>
          if r.id = row.id then
            { r with
              encrypted_data :=
                (encryptMatch (mkMatchData recipient) pw user.email (ivs k)).encrypted,
              iv := (encryptMatch (mkMatchData recipient) pw user.email (ivs k)).iv,
              auth_tag :=
                (encryptMatch (mkMatchData recipient) pw user.email (ivs k)).authTag }
          else r), RowWF r := by
        intro r hr
        rcases List.mem_map.mp hr with ⟨r0, hr0, rfl⟩
        by_cases h0 : r0.id = row.id
        · right
          exact ⟨deriveUserKey pw user.email, hexEncode (randomBytes 12 (ivs k)),
            mkMatchData recipient, by simp [h0, encryptMatch], by simp [h0, encryptMatch],
            by simp [h0, encryptMatch], by simp [hexEncode_length, randomBytes]⟩
        · simp only [if_neg h0]
          exact hwf r0 hr0
      dsimp only
      split
      · exact hmap
      · exact hmap
  · exact hwf

/-- C7 (amended): every reachable persisted assignment row is either Unsealed,
holding the sentinel `'PENDING'` in all of `encrypted_data`, `iv` and `auth_tag`,
or Sealed, holding ciphertext and authentication tag under a single key and nonce
with a hex-encoded 12-byte nonce (24 hex digits): the reveal route preserves this
row invariant from any state satisfying it. -/
theorem myMatchHandler_preserves_rowWF (g : Nat → Nat → Nat) (ivs : Nat → List Nat)
    (db : Db) (uid : Nat) (password : Option String)
    (hwf : ∀ r ∈ db.matchRows, RowWF r) :
    ∀ r ∈ (myMatchHandler g ivs db uid password).2.matchRows, RowWF r := by
  cases password with
  | none => simpa [myMatchHandler] using hwf
  | some pw =>
    simp only [myMatchHandler]
    split
    · exact hwf
    · split
      · exact hwf
      · next user huser =>
        split
        · split
          · split
            · next row hrow =>
              exact revealFromRow_preserves_rowWF db user pw ivs 0 _ row hwf
            · split
              · exact hwf
              · next event hev =>
                split
                · exact hwf
                · split
                  · exact hwf
                  · next recipients hder =>
                    rw [insertMatchLoop_eq]
                    have hwf3 : ∀ r ∈ db.matchRows ++ genRows user.id pw user.email
                        ivs user.event_id
                        ((sortById (db.users.filter fun u =>
                          u.event_id == user.event_id)).zip recipients)
                        db.nextMatchId 0, RowWF r := by
                      intro r hr
                      rcases List.mem_append.mp hr with h | h
                      · exact hwf r h
                      · obtain ⟨hpend, hseal⟩ := genRows_rowState user.id pw
                          user.email ivs user.event_id _ _ _ r h
                        by_cases hg : r.giver_id = user.id
                        · obtain ⟨ivh, md, h1, h2, h3, h4⟩ := hseal hg
                          exact Or.inr ⟨_, ivh, md, h1, h2, h3, h4⟩
                        · exact Or.inl (hpend hg)
                    split
                    · exact hwf3
                    · next x row hres =>
                      exact revealFromRow_preserves_rowWF _ user pw ivs _ _ row hwf3
          · exact hwf
        · exact hwf

/-- Witness for the amended C7: the invariant holds for the placeholder row
written for giver 2 by a full generation run from the empty assignment table. -/
theorem myMatchHandler_preserves_rowWF_witness :
    RowWF ((myMatchHandler (fun _ _ => 0) (fun _ => []) wDbGen 1
      (some "pw")).2.matchRows.getD 1 wRowPending) :=
  myMatchHandler_preserves_rowWF (fun _ _ => 0) (fun _ => []) wDbGen 1 (some "pw")
    (by simp [wDbGen]) _ (by decide)

/-- User object with the temporary plaintext password available at registration
time, as passed to `generateMatches(usersWithPasswords)` in the matching
utility. -/
structure UserPw where
  id : Nat
  email : String
  name : String
  password : Option String
deriving DecidableEq

/-- Payload built from a recipient object of the matching utility. -/
def mkMatchDataPw (recipient : UserPw) : MatchData :=
  ⟨recipient.id, recipient.name, recipient.email⟩

/-- Match object `{giverId, recipientId, encryptedData, iv, authTag}` produced by
`generateMatches`. -/
structure MatchOut where
  giverId : Nat
  recipientId : Nat
  encryptedData : Cell MatchData
  iv : String
  authTag : Cell MatchData
deriving DecidableEq

/-- Failures of the matching utility: fewer than two participants, the rejection
loop exhausting its 100 attempts, a giver without a password at encryption time
(the JS falsy check also rejects an empty one), and a lookup of a missing event
in `checkAndGenerateMatches`. -/
inductive GenError where
  | tooFew
  | exhausted
  | passwordMissing (email : String)
  | noEvent
deriving DecidableEq

/-- Encryption loop of `generateMatches`: one sealed match per (giver, recipient)
pair, aborting on the first giver whose password is absent. -/
def buildMatches (ivs : Nat → List Nat) :
    List (UserPw × UserPw) → Nat → Except GenError (List MatchOut)
  | [], _ => .ok []
  | (giver, recipient) :: rest, k =>
    match giver.password with
    | none => .error (.passwordMissing giver.email)
    | some pw =>
      if pw = "" then .error (.passwordMissing giver.email)
      else
        match buildMatches ivs rest (k+1) with
        | .error e => .error e
        | .ok ms =>
          let m : MatchOut :=
            { giverId := giver.id, recipientId := recipient.id,
              encryptedData :=
                (encryptMatch (mkMatchDataPw recipient) pw giver.email (ivs k)).encrypted,
              iv := (encryptMatch (mkMatchDataPw recipient) pw giver.email (ivs k)).iv,
              authTag :=
                (encryptMatch (mkMatchDataPw recipient) pw giver.email (ivs k)).authTag }
          .ok (m :: ms)

/-- `generateMatches(users)` (matching utility): the same rejection-sampling
derangement as the route, then per-giver encryption of the recipient payload with
the giver's own password and email. -/
def generateMatches (g : Nat → Nat → Nat) (ivs : Nat → List Nat)
    (users : List UserPw) : Except GenError (List MatchOut) :=
  if users.length < 2 then .error .tooFew
  else
    match derangeAttempts UserPw.id g users 100 0 with
    | none => .error .exhausted
    | some recipients => buildMatches ivs (users.zip recipients) 0

/-- `storeMatches(db, eventId, matches)` (matching utility): inside one
transaction, insert every match row and set `matches_generated = 1,
all_registered = 1` on the event. -/
def storeMatches (db : Db) (eventId : Nat) (ms : List MatchOut) : Db :=
  let db2 := ms.foldl (fun d m =>
    d.insertMatch eventId m.giverId m.recipientId m.encryptedData m.iv m.authTag) db
  { db2 with events := db2.events.map fun e =>
      if e.id = eventId then
        { e with matches_generated := true, all_registered := true }
      else e }

/-- `checkAndGenerateMatches(db, eventId, usersWithPasswords)` (matching
utility): returns false without touching the state when the event is already
generated or some participant is unregistered; otherwise generates, stores and
returns true. -/
def checkAndGenerateMatches (g : Nat → Nat → Nat) (ivs : Nat → List Nat) (db : Db)
    (eventId : Nat) (usersWithPasswords : List UserPw) :
    Except GenError (Bool × Db) :=
  match db.events.find? (fun e => e.id == eventId) with
  | none => .error .noEvent
  | some event =>
    if event.matches_generated then .ok (false, db)
    else
      if (db.users.filter fun u => u.event_id == eventId).all
          (fun u => u.is_registered) then
        match generateMatches g ivs usersWithPasswords with
        | .error e => .error e
        | .ok ms => .ok (true, storeMatches db eventId ms)
      else .ok (false, db)

theorem buildMatches_length (ivs : Nat → List Nat) :
    ∀ (pairs : List (UserPw × UserPw)) (k : Nat) (ms : List MatchOut),
      buildMatches ivs pairs k = .ok ms → ms.length = pairs.length
  | [], k, ms, h => by
    rw [buildMatches] at h
    cases h
    rfl
  | (giver, recipient) :: rest, k, ms, h => by
    rw [buildMatches] at h
    split at h
    · cases h
    · split at h
      · cases h
      · split at h
        · cases h
        · next ms2 hms2 =>
          cases h
          simpa using buildMatches_length ivs rest (k+1) ms2 hms2

theorem generateMatches_length (g : Nat → Nat → Nat) (ivs : Nat → List Nat)
    (users : List UserPw) (ms : List MatchOut)
    (h : generateMatches g ivs users = .ok ms) : ms.length = users.length := by
  rw [generateMatches] at h
  split at h
  · cases h
  · split at h
    · cases h
    · next recipients hrec =>
      have hperm := (derangeAttempts_eq_some UserPw.id g users 100 0 recipients hrec).1
      have hb := buildMatches_length ivs (users.zip recipients) 0 ms h
      rw [hb, List.length_zip, hperm.length_eq]
      simp

theorem foldl_insert_length (eventId : Nat) :
    ∀ (ms : List MatchOut) (db : Db),
      (ms.foldl (fun d m => d.insertMatch eventId m.giverId m.recipientId
        m.encryptedData m.iv m.authTag) db).matchRows.length =
      db.matchRows.length + ms.length
  | [], db => by simp
  | m :: rest, db => by
    rw [List.foldl_cons, foldl_insert_length eventId rest]
    simp [Db.insertMatch]
    omega

theorem foldl_insert_events (eventId : Nat) :
    ∀ (ms : List MatchOut) (db : Db),
      (ms.foldl (fun d m => d.insertMatch eventId m.giverId m.recipientId
        m.encryptedData m.iv m.authTag) db).events = db.events
  | [], _ => rfl
  | m :: rest, db => by
    rw [List.foldl_cons, foldl_insert_events eventId rest]
    rfl

/-- C4: generation through `checkAndGenerateMatches` is idempotent and
exactly-once: a first successful trigger on a not-yet-generated event with an
empty assignment table creates exactly one assignment row per passed participant
and flips the event's flag from not-generated to generated, and any further
trigger — with any randomness and any participant list — returns false and
changes no state at all. -/
theorem checkAndGenerateMatches_exactly_once (g : Nat → Nat → Nat)
    (ivs : Nat → List Nat) (db : Db) (eventId : Nat) (ups : List UserPw)
    (event : EventRec) (db2 : Db)
    (hev : db.events.find? (fun e => e.id == eventId) = some event)
    (hflag : event.matches_generated = false)
    (hempty : db.matchRows = [])
    (h1 : checkAndGenerateMatches g ivs db eventId ups = .ok (true, db2)) :
    db2.matchRows.length = ups.length ∧
      db2.events.find? (fun e => e.id == eventId) =
        some { event with matches_generated := true, all_registered := true } ∧
      ∀ (g2 : Nat → Nat → Nat) (ivs2 : Nat → List Nat) (ups2 : List UserPw),
        checkAndGenerateMatches g2 ivs2 db2 eventId ups2 = .ok (false, db2) := by
  simp only [checkAndGenerateMatches, hev, hflag] at h1
  simp only [Bool.false_eq_true, if_false] at h1
  split at h1
  · split at h1
    · cases h1
    · next ms hms =>
      simp only [Except.ok.injEq, Prod.mk.injEq, true_and] at h1
      subst h1
      have hlen := generateMatches_length g ivs ups ms hms
      have hevid : event.id = eventId := by
        have := List.find?_some hev
        simpa using this
      have hev2 : (storeMatches db eventId ms).events.find?
          (fun e => e.id == eventId) =
          some { event with matches_generated := true, all_registered := true } := by
        show ((ms.foldl (fun d m => d.insertMatch eventId m.giverId m.recipientId
          m.encryptedData m.iv m.authTag) db).events.map _).find? _ = _
        rw [foldl_insert_events, find?_map_eq]
        have hcong : (fun a : EventRec =>
            ((if a.id = eventId then
              { a with matches_generated := true, all_registered := true }
              else a).id == eventId)) = fun a : EventRec => a.id == eventId := by
          funext a
          by_cases ha : a.id = eventId <;> simp [ha]
        rw [hcong, hev]
        simp [hevid]
      refine ⟨?_, hev2, ?_⟩
      · show (ms.foldl (fun d m => d.insertMatch eventId m.giverId m.recipientId
          m.encryptedData m.iv m.authTag) db).matchRows.length = _
        rw [foldl_insert_length, hempty, hlen]
        simp
      · intro g2 ivs2 ups2
        rw [checkAndGenerateMatches, hev2]
        simp
  · cases h1

/-- Participants with their temporary plaintext passwords, used by the C4
witness. -/
def wUps : List UserPw := [⟨1, "a", "A", some "p1"⟩, ⟨2, "b", "B", some "p2"⟩]

/-- First match produced by the C4 witness run. -/
def wM1 : MatchOut :=
  { giverId := 1, recipientId := 2,
    encryptedData :=
      (encryptMatch (mkMatchDataPw ⟨2, "b", "B", some "p2"⟩) "p1" "a" []).encrypted,
    iv := (encryptMatch (mkMatchDataPw ⟨2, "b", "B", some "p2"⟩) "p1" "a" []).iv,
    authTag :=
      (encryptMatch (mkMatchDataPw ⟨2, "b", "B", some "p2"⟩) "p1" "a" []).authTag }

/-- Second match produced by the C4 witness run. -/
def wM2 : MatchOut :=
  { giverId := 2, recipientId := 1,
    encryptedData :=
      (encryptMatch (mkMatchDataPw ⟨1, "a", "A", some "p1"⟩) "p2" "b" []).encrypted,
    iv := (encryptMatch (mkMatchDataPw ⟨1, "a", "A", some "p1"⟩) "p2" "b" []).iv,
    authTag :=
      (encryptMatch (mkMatchDataPw ⟨1, "a", "A", some "p1"⟩) "p2" "b" []).authTag }

/-- Matches produced by the C4 witness run. -/
def wMs : List MatchOut := [wM1, wM2]

/-- Witness for C4 at the concrete two-participant event. -/
theorem checkAndGenerateMatches_exactly_once_witness :
    (storeMatches wDbGen 1 wMs).matchRows.length = wUps.length ∧
      (storeMatches wDbGen 1 wMs).events.find? (fun e => e.id == 1) =
        some { wEventNotGen with matches_generated := true, all_registered := true } ∧
      ∀ (g2 : Nat → Nat → Nat) (ivs2 : Nat → List Nat) (ups2 : List UserPw),
        checkAndGenerateMatches g2 ivs2 (storeMatches wDbGen 1 wMs) 1 ups2 =
          .ok (false, storeMatches wDbGen 1 wMs) :=
  checkAndGenerateMatches_exactly_once (fun _ _ => 0) (fun _ => []) wDbGen 1 wUps
    wEventNotGen (storeMatches wDbGen 1 wMs) (by rfl) (by rfl) (by rfl) (by rfl)

/-- C10: `shuffle` returns a permutation (same multiset of elements) of its
argument for every sequence of random index choices; the source copies the array
(`[...array]`) before swapping, and the embedding is a pure function of the
argument list, which is therefore left unmodified. -/
theorem shuffle_returns_permutation {α : Type _} (f : Nat → Nat) (l : List α) :
    (shuffle f l).Perm l :=
  shuffle_perm f l

end SecretSanta
